import Mathlib

/-
Verification of the second-brain TTS/STT service core.

The Python source is shallowly embedded in Lean:
  * text is modelled as `List Char`, audio sample buffers as `List ℚ`
    (an idealisation of float32 arithmetic; every concrete witness below
    uses values that are exact in binary floating point),
  * byte strings as `List Nat` (each entry < 256),
  * stateful objects as explicit state-passing functions,
  * the capacity-1 asyncio semaphore and the WebSocket session loop as
    explicit transition systems.
Each definition is translated from the named source function; definitions
whose name starts with `spec` follow the specification's words instead and
are compared against the code-derived definitions.
-/

namespace SecondBrain

/-! ## Whitespace handling (Python `str.split` / `str.strip` / `" ".join`) -/

/-- Python whitespace predicate used by `str.split()` and `str.strip()`. -/
def isWs (c : Char) : Bool := c.isWhitespace

/-- Sentence separators of `re.split(r"[.!?]+", text)` in
`_split_into_sentences` (tts-service `tts_engine.py` line 186,
adv-tts-service `tts_engine.py` lines 272 and 551). -/
def isSentenceSep (c : Char) : Bool := c = '.' || c = '!' || c = '?'

/-- Python `text.split()` with no argument: splits on runs of whitespace,
discarding empty tokens (leading/trailing whitespace produces nothing). -/
def wsTokens : List Char → List (List Char)
  | [] => []
  | c :: cs =>
    if isWs c then wsTokens cs
    else
      match cs with
      | [] => [[c]]
      | d :: _ =>
        if isWs d then [c] :: wsTokens cs
        else
          match wsTokens cs with
          | [] => [[c]]
          | t :: ts => (c :: t) :: ts

/-- Python `" ".join(v.split())` from `SynthesizeRequest.validate_text`
(`schemas.py` line 35 / line 41): collapse whitespace runs to single
spaces and trim. -/
def pyCollapseWs (l : List Char) : List Char := List.intercalate [' '] (wsTokens l)

/-- Python `s.strip()`: drop leading and trailing whitespace. -/
def pyStrip (l : List Char) : List Char :=
  ((l.dropWhile isWs).reverse.dropWhile isWs).reverse

/-! ## Sentence splitting and streaming synthesis
(`TTSEngine.synthesize_streaming` / `_split_into_sentences`,
tts-service `tts_engine.py` lines 149-187; the adv-tts-service
`PiperEngine._split_into_sentences` lines 270-273 is identical). -/

/-- Python `re.split(r"[.!?]+", text)`: pieces between maximal runs of
sentence separators; a leading or trailing run yields an empty piece.  A
separator char opens a piece boundary unless the char to its right is
also a separator (in which case the boundary was already opened). -/
def sentenceSplit : List Char → List (List Char)
  | [] => [[]]
  | c :: cs =>
    let r := sentenceSplit cs
    if isSentenceSep c then
      match cs with
      | [] => [] :: r
      | d :: _ => if isSentenceSep d then r else [] :: r
    else
      match r with
      | [] => [[c]]
      | p :: ps => (c :: p) :: ps

/-- Embeds `_split_into_sentences`:
`[s.strip() for s in re.split(r"[.!?]+", text) if s.strip()]`. -/
def splitIntoSentences (text : List Char) : List (List Char) :=
  (sentenceSplit text).filterMap
    (fun s => if pyStrip s = [] then none else some (pyStrip s))

/-- Embeds `TTSEngine.synthesize_streaming` (tts-service `tts_engine.py`
lines 149-173): iterate the split sentences, skip any that strips to
empty, and yield one synthesis result per remaining sentence.  The
engine's inference call is opaque and is abstracted by `synth`. -/
def synthesizeStreaming {α : Type} (synth : List Char → α) (text : List Char) :
    List α :=
  (splitIntoSentences text).filterMap
    (fun sentence => if pyStrip sentence = [] then none else some (synth sentence))

/-! ## Request text validation (`SynthesizeRequest`, `schemas.py`)

`text` carries pydantic constraints `min_length=1, max_length=10000`
(line 25), which pydantic v2 checks on the raw input *before* running the
`mode="after"` field validator `validate_text` (lines 30-38 / 37-44),
which collapses whitespace and rejects a result that strips to empty. -/

/-- Embeds the full pydantic validation pipeline for the `text` field:
raw length bounds first, then `validate_text`. -/
def validateTextField (t : List Char) : Except String (List Char) :=
  if t.length < 1 then .error "min_length"
  else if 10000 < t.length then .error "max_length"
  else if pyStrip (pyCollapseWs t) = [] then
    .error "Text cannot be empty or only whitespace"
  else .ok (pyCollapseWs t)

/-- Follows the specification's words for C3: whitespace is collapsed and
trimmed *before* the length bounds (min 1, max 10000) are checked. -/
def specOrderValidateText (t : List Char) : Except String (List Char) :=
  if (pyCollapseWs t).length < 1 then .error "min_length"
  else if 10000 < (pyCollapseWs t).length then .error "max_length"
  else .ok (pyCollapseWs t)

/-! ## Helper lemmas about stripping and splitting -/

theorem dropWhile_self_idem {α : Type} (p : α → Bool) (l : List α) :
    (l.dropWhile p).dropWhile p = l.dropWhile p := by
  induction l with
  | nil => simp
  | cons c cs ih =>
    by_cases h : p c <;> simp [List.dropWhile_cons, h, ih]

theorem dropWhile_eq_self_of_head? {α : Type} (p : α → Bool) (l : List α)
    (h : ∀ c, l.head? = some c → p c = false) : l.dropWhile p = l := by
  cases l with
  | nil => rfl
  | cons c cs => simp [List.dropWhile_cons, h c rfl]

theorem pyStrip_head?_not_ws (l : List Char) (c : Char)
    (h : (pyStrip l).head? = some c) : isWs c = false := by
  unfold pyStrip at h
  have hpre : ((l.dropWhile isWs).reverse.dropWhile isWs).reverse <+: l.dropWhile isWs := by
    have := List.reverse_prefix.mpr (List.dropWhile_suffix (l := (l.dropWhile isWs).reverse) isWs)
    simpa using this
  obtain ⟨t, ht⟩ := hpre
  have hhead : (l.dropWhile isWs).head? = some c := by
    rw [← ht, List.head?_append, h]
    rfl
  have := List.head?_dropWhile_not isWs l
  rw [hhead] at this
  exact this

theorem pyStrip_idem (l : List Char) : pyStrip (pyStrip l) = pyStrip l := by
  have h1 : (pyStrip l).dropWhile isWs = pyStrip l :=
    dropWhile_eq_self_of_head? _ _ (pyStrip_head?_not_ws l)
  have h2 : (pyStrip l).reverse = (l.dropWhile isWs).reverse.dropWhile isWs := by
    unfold pyStrip
    rw [List.reverse_reverse]
  show (((pyStrip l).dropWhile isWs).reverse.dropWhile isWs).reverse = pyStrip l
  rw [h1, h2, dropWhile_self_idem, ← h2, List.reverse_reverse]

theorem pyStrip_subset (l : List Char) : pyStrip l ⊆ l := by
  intro c hc
  unfold pyStrip at hc
  rw [List.mem_reverse] at hc
  have hc2 := List.dropWhile_subset (l := (l.dropWhile isWs).reverse) isWs hc
  rw [List.mem_reverse] at hc2
  exact List.dropWhile_subset isWs hc2

theorem sentenceSplit_no_sep (l : List Char) :
    ∀ p ∈ sentenceSplit l, ∀ c ∈ p, isSentenceSep c = false := by
  induction l with
  | nil =>
    intro p hp c hc
    simp [sentenceSplit] at hp
    subst hp
    simp at hc
  | cons a as ih =>
    intro p hp c hc
    by_cases ha : isSentenceSep a
    · simp only [sentenceSplit, ha, if_true] at hp
      cases as with
      | nil =>
        rcases List.mem_cons.mp hp with h | h
        · subst h; simp at hc
        · exact ih p h c hc
      | cons d ds =>
        by_cases hd : isSentenceSep d
        · simp only [hd, if_true] at hp
          exact ih p hp c hc
        · simp only [hd, if_false] at hp
          rcases List.mem_cons.mp hp with h | h
          · subst h; simp at hc
          · exact ih p h c hc
    · simp only [sentenceSplit, ha, if_false] at hp
      rcases hr : sentenceSplit as with _ | ⟨q, qs⟩
      · rw [hr] at hp
        rcases List.mem_cons.mp hp with h | h
        · subst h
          rcases List.mem_cons.mp hc with h' | h'
          · subst h'
            simpa using ha
          · simp at h'
        · simp at h
      · rw [hr] at hp
        rcases List.mem_cons.mp hp with h | h
        · subst h
          rcases List.mem_cons.mp hc with h' | h'
          · subst h'
            simpa using ha
          · refine ih q ?_ c h'
            rw [hr]; exact List.mem_cons_self q qs
        · refine ih p ?_ c hc
          rw [hr]; exact List.mem_cons_of_mem q h

theorem mem_splitIntoSentences (text u : List Char)
    (h : u ∈ splitIntoSentences text) :
    u ≠ [] ∧ pyStrip u = u ∧ ∀ c ∈ u, isSentenceSep c = false := by
  unfold splitIntoSentences at h
  rw [List.mem_filterMap] at h
  obtain ⟨s, hs, hf⟩ := h
  by_cases hstrip : pyStrip s = []
  · simp [hstrip] at hf
  · simp only [hstrip, if_false, Option.some.injEq] at hf
    subst hf
    refine ⟨hstrip, pyStrip_idem s, ?_⟩
    intro c hc
    exact sentenceSplit_no_sep text s hs c (pyStrip_subset s hc)

theorem filterMap_congr_map {α β : Type} {f : α → Option β} {g : α → β}
    (l : List α) (h : ∀ a ∈ l, f a = some (g a)) : l.filterMap f = l.map g := by
  induction l with
  | nil => rfl
  | cons a as ih =>
    rw [List.filterMap_cons, h a (List.mem_cons_self a as), List.map_cons,
      ih (fun x hx => h x (List.mem_cons_of_mem a hx))]

theorem wsTokens_cons_space (rest : List Char) :
    wsTokens (' ' :: rest) = wsTokens rest := rfl

theorem wsTokens_replicate_space (n : Nat) (l : List Char) :
    wsTokens (List.replicate n ' ' ++ l) = wsTokens l := by
  induction n with
  | zero => rfl
  | succ m ih => rw [List.replicate_succ, List.cons_append, wsTokens_cons_space, ih]

theorem wsTokens_eq_nil_of_all_ws (l : List Char) (h : ∀ c ∈ l, isWs c = true) :
    wsTokens l = [] := by
  induction l with
  | nil => rfl
  | cons c cs ih =>
    have hc : isWs c = true := h c (List.mem_cons_self c cs)
    simp only [wsTokens, hc, if_true]
    exact ih (fun x hx => h x (List.mem_cons_of_mem c hx))

/-! ## Claim C2 -/

/-- C2: `synthesize_streaming` splits its input on runs of `.`, `!`, `?`,
discards units that are empty after trimming, and yields exactly one
synthesis result per remaining unit in the original order; the units are
non-empty, fully trimmed, and free of separators, and
"First. Second. Third." yields exactly the 3 units First, Second, Third. -/
theorem c2_streaming_one_result_per_unit :
    (∀ (α : Type) (synth : List Char → α) (text : List Char),
        synthesizeStreaming synth text = (splitIntoSentences text).map synth)
    ∧ (∀ text u : List Char, u ∈ splitIntoSentences text →
        u ≠ [] ∧ pyStrip u = u ∧ ∀ c ∈ u, isSentenceSep c = false)
    ∧ splitIntoSentences "First. Second. Third.".data
        = ["First".data, "Second".data, "Third".data] := by
  refine ⟨?_, mem_splitIntoSentences, by decide⟩
  intro α synth text
  unfold synthesizeStreaming
  refine filterMap_congr_map _ (fun u hu => ?_)
  have h := mem_splitIntoSentences text u hu
  simp [h.2.1, h.1]

/-- Witness for C2 at the concrete streaming example. -/
theorem c2_streaming_one_result_per_unit_witness :
    ("First".data ∈ splitIntoSentences "First. Second. Third.".data)
    ∧ ("First".data ≠ [] ∧ pyStrip "First".data = "First".data
        ∧ ∀ c ∈ "First".data, isSentenceSep c = false) :=
  ⟨by decide,
    c2_streaming_one_result_per_unit.2.1 "First. Second. Third.".data "First".data
      (by decide)⟩

/-! ## Claim C3 -/

/-- Concrete C3 counterexample input: 10000 spaces followed by one letter
(raw length 10001; collapses to the single letter). -/
def c3BadInput : List Char := List.replicate 10000 ' ' ++ ['a']

/-- C3 counterexample: the code checks the pydantic length bounds on the
raw text *before* whitespace collapsing, so a 10001-character input that
collapses to one character is rejected, while the claim's order (collapse
first, then bounds) would accept it. -/
theorem c3_counterexample :
    validateTextField c3BadInput = Except.error "max_length"
    ∧ specOrderValidateText c3BadInput = Except.ok ['a'] := by
  have hlen : c3BadInput.length = 10001 := by
    unfold c3BadInput
    rw [List.length_append, List.length_replicate]
    rfl
  have hcol : pyCollapseWs c3BadInput = ['a'] := by
    unfold pyCollapseWs c3BadInput
    rw [wsTokens_replicate_space]
    rfl
  constructor
  · unfold validateTextField
    rw [hlen]
    norm_num
  · unfold specOrderValidateText
    rw [hcol]
    norm_num

/-- C3 amended: the length bounds (min 1, max 10000) are checked on the
raw request text *before* whitespace normalization; collapsing of internal
whitespace runs and trimming happen afterwards in the field validator,
whose output is the collapsed text; an input consisting only of
whitespace is still rejected. -/
theorem c3_validation_amended :
    (∀ t : List Char,
        validateTextField t = Except.ok (pyCollapseWs t)
          ↔ 1 ≤ t.length ∧ t.length ≤ 10000 ∧ pyStrip (pyCollapseWs t) ≠ [])
    ∧ (∀ t : List Char, (∀ c ∈ t, isWs c = true) →
        ∃ e, validateTextField t = Except.error e) := by
  constructor
  · intro t
    unfold validateTextField
    constructor
    · intro h
      by_cases h1 : t.length < 1
      · rw [if_pos h1] at h; simp at h
      · rw [if_neg h1] at h
        by_cases h2 : 10000 < t.length
        · rw [if_pos h2] at h; simp at h
        · rw [if_neg h2] at h
          by_cases h3 : pyStrip (pyCollapseWs t) = []
          · rw [if_pos h3] at h; simp at h
          · exact ⟨by omega, by omega, h3⟩
    · rintro ⟨ha, hb, hc⟩
      rw [if_neg (by omega), if_neg (by omega), if_neg hc]
  · intro t hws
    have hnil : pyCollapseWs t = [] := by
      unfold pyCollapseWs
      rw [wsTokens_eq_nil_of_all_ws t hws]
      rfl
    unfold validateTextField
    by_cases h1 : t.length < 1
    · exact ⟨_, by rw [if_pos h1]⟩
    · by_cases h2 : 10000 < t.length
      · exact ⟨_, by rw [if_neg h1, if_pos h2]⟩
      · exact ⟨_, by rw [if_neg h1, if_neg h2, if_pos (by rw [hnil]; rfl)]⟩

/-- Witness for C3 amended: a padded input is accepted with collapsed
output, and an all-whitespace input is rejected. -/
theorem c3_validation_amended_witness :
    validateTextField "  hi   there ".data = Except.ok (pyCollapseWs "  hi   there ".data)
    ∧ ∃ e, validateTextField "   ".data = Except.error e :=
  ⟨(c3_validation_amended.1 _).mpr (by decide), c3_validation_amended.2 _ (by decide)⟩

/-! ## WAV encoding (`audio_to_bytes`, tts-service `tts_engine.py` lines
189-229 and adv-tts-service `tts_engine.py` lines 98-118)

Float samples are idealised as `ℚ`; every concrete value used below is
exact in binary floating point.  `(audio_data * 32767).astype(np.int16)`
truncates each product toward zero (C cast semantics) and wraps modulo
2^16 into the int16 range; the `wave` module then writes the canonical
44-byte mono 16-bit PCM header followed by the little-endian samples. -/

/-- Truncation toward zero, the rounding of numpy's `astype(np.int16)`
(the numerator is divided by the positive denominator, truncating). -/
def ratTrunc (q : ℚ) : ℤ := q.num.tdiv q.den

/-- Truncation toward zero is floor on nonnegatives, ceiling on negatives. -/
theorem ratTrunc_eq (q : ℚ) : ratTrunc q = if 0 ≤ q then ⌊q⌋ else ⌈q⌉ := by
  by_cases h : 0 ≤ q
  · rw [if_pos h, Rat.floor_def]
    exact Int.tdiv_eq_ediv (Rat.num_nonneg.mpr h) (Int.natCast_nonneg _)
  · rw [if_neg h]
    have hq : (0 : ℚ) ≤ -q := by linarith [lt_of_not_le h]
    have hceil : ⌈q⌉ = -⌊-q⌋ := by
      rw [Int.floor_neg, neg_neg]
    have hfloor : ⌊-q⌋ = (-q).num.tdiv (-q).den := by
      rw [Rat.floor_def]
      exact (Int.tdiv_eq_ediv (Rat.num_nonneg.mpr hq) (Int.natCast_nonneg _)).symm
    have hnum : (-q).num = -q.num := Rat.num_neg_eq_neg_num q
    have hden : (-q).den = q.den := Rat.neg_den q
    rw [hceil, hfloor, hnum, hden, Int.neg_tdiv, neg_neg]
    rfl

/-- Embeds `(sample * 32767).astype(np.int16)` for one sample: truncate
toward zero, then wrap into the int16 range. -/
def floatToInt16 (q : ℚ) : ℤ :=
  (ratTrunc (q * 32767) + 32768) % 65536 - 32768

/-- Follows the specification's words for C4: conversion to 16-bit PCM is
`round(sample * 32767)`. -/
def specRoundToInt16 (q : ℚ) : ℤ := round (q * 32767)

/-- Little-endian 16-bit encoding of a Nat (as written by `wave`). -/
def u16le (n : Nat) : List Nat := [n % 256, n / 256 % 256]

/-- Little-endian 32-bit encoding of a Nat (as written by `wave`). -/
def u32le (n : Nat) : List Nat :=
  [n % 256, n / 256 % 256, n / 65536 % 256, n / 16777216 % 256]

/-- Little-endian bytes of one int16 sample (two's complement). -/
def i16le (v : ℤ) : List Nat :=
  [(v % 65536).toNat % 256, (v % 65536).toNat / 256]

/-- The PCM data section: converted samples, little-endian. -/
def wavDataBytes (samples : List ℚ) : List Nat :=
  (samples.map (fun q => i16le (floatToInt16 q))).flatten

/-- Embeds `audio_to_bytes(samples, rate, "wav")`: the byte stream the
Python `wave` module produces for a mono 16-bit single-chunk file. -/
def wavBytes (samples : List ℚ) (rate : Nat) : List Nat :=
  let data := wavDataBytes samples
  [82, 73, 70, 70] ++ u32le (36 + data.length) ++ [87, 65, 86, 69]
    ++ [102, 109, 116, 32] ++ u32le 16 ++ u16le 1 ++ u16le 1
    ++ u32le rate ++ u32le (rate * 2) ++ u16le 2 ++ u16le 16
    ++ [100, 97, 116, 97] ++ u32le data.length ++ data

/-- Re-read a 16-bit little-endian header field at a byte offset. -/
def readU16 (bs : List Nat) (off : Nat) : Nat :=
  match bs.drop off with
  | b0 :: b1 :: _ => b0 + 256 * b1
  | [b0] => b0
  | [] => 0

/-- Re-read a 32-bit little-endian header field at a byte offset. -/
def readU32 (bs : List Nat) (off : Nat) : Nat :=
  match bs.drop off with
  | b0 :: b1 :: b2 :: b3 :: _ => b0 + 256 * b1 + 65536 * b2 + 16777216 * b3
  | _ => 0

/-! ## Claim C4 -/

/-- C4 counterexample: the claimed conversion `round(sample * 32767)`
disagrees with the code's `astype(np.int16)` truncation at the sample
0.5 (a value exact in float32): the code stores 16383, rounding gives
16384. -/
theorem c4_counterexample :
    floatToInt16 (1 / 2) = 16383 ∧ specRoundToInt16 (1 / 2) = 16384
    ∧ floatToInt16 (1 / 2) ≠ specRoundToInt16 (1 / 2) := by
  have htr : ratTrunc (1 / 2 * 32767) = 16383 := by
    norm_num [ratTrunc]
    decide
  have h1 : floatToInt16 (1 / 2) = 16383 := by
    unfold floatToInt16
    rw [htr]
    decide
  have h2 : specRoundToInt16 (1 / 2) = 16384 := by
    unfold specRoundToInt16
    rw [round_eq]
    norm_num
  exact ⟨h1, h2, by rw [h1, h2]; decide⟩

set_option maxHeartbeats 1600000 in
/-- C4 amended: encoding converts each sample by *truncating*
`sample * 32767` toward zero (int16 cast; for samples in [-1, 1] the wrap
is the identity), and the produced container's header, when re-read,
reports the original sample rate at offset 24, exactly one channel at
offset 22, a 16-bit sample width at offset 34, starts with the RIFF magic
and has WAVE at offset 8, and carries the converted samples from byte 44
on. -/
theorem c4_wav_container_amended :
    (∀ (samples : List ℚ) (rate : Nat), rate < 4294967296 →
        readU32 (wavBytes samples rate) 24 = rate
        ∧ readU16 (wavBytes samples rate) 22 = 1
        ∧ readU16 (wavBytes samples rate) 34 = 16
        ∧ (wavBytes samples rate).take 4 = [82, 73, 70, 70]
        ∧ ((wavBytes samples rate).drop 8).take 4 = [87, 65, 86, 69]
        ∧ (wavBytes samples rate).drop 44 = wavDataBytes samples)
    ∧ (∀ q : ℚ, -1 ≤ q → q ≤ 1 → floatToInt16 q = ratTrunc (q * 32767)) := by
  constructor
  · intro samples rate hrate
    refine ⟨?_, rfl, rfl, rfl, rfl, rfl⟩
    have hread : readU32 (wavBytes samples rate) 24
        = rate % 256 + 256 * (rate / 256 % 256) + 65536 * (rate / 65536 % 256)
          + 16777216 * (rate / 16777216 % 256) := rfl
    rw [hread]
    omega
  · intro q h1 h2
    have ht1 : (-32767 : ℚ) ≤ q * 32767 := by nlinarith
    have ht2 : q * 32767 ≤ (32767 : ℚ) := by nlinarith
    have hb1 : (-32767 : ℤ) ≤ ratTrunc (q * 32767) := by
      rw [ratTrunc_eq]
      by_cases h : 0 ≤ q * 32767
      · rw [if_pos h]
        exact Int.le_floor.mpr (by exact_mod_cast ht1)
      · rw [if_neg h]
        have : ((-32767 : ℤ) : ℚ) ≤ q * 32767 := by exact_mod_cast ht1
        exact Int.cast_le.mp (le_trans this (Int.le_ceil _))
    have hb2 : ratTrunc (q * 32767) ≤ 32767 := by
      rw [ratTrunc_eq]
      by_cases h : 0 ≤ q * 32767
      · rw [if_pos h]
        have : q * 32767 ≤ ((32767 : ℤ) : ℚ) := by exact_mod_cast ht2
        exact Int.cast_le.mp (le_trans (Int.floor_le _) this)
      · rw [if_neg h]
        exact le_trans (Int.ceil_le.mpr (by exact_mod_cast ht2)) (by norm_num)
    unfold floatToInt16
    omega

/-- Witness for C4 amended: concrete rate 22050 and sample 0.5. -/
theorem c4_wav_container_amended_witness :
    (readU32 (wavBytes [1 / 2] 22050) 24 = 22050
      ∧ readU16 (wavBytes [1 / 2] 22050) 22 = 1
      ∧ readU16 (wavBytes [1 / 2] 22050) 34 = 16
      ∧ (wavBytes [1 / 2] 22050).take 4 = [82, 73, 70, 70]
      ∧ ((wavBytes [1 / 2] 22050).drop 8).take 4 = [87, 65, 86, 69]
      ∧ (wavBytes [1 / 2] 22050).drop 44 = wavDataBytes [1 / 2])
    ∧ floatToInt16 (1 / 2) = ratTrunc ((1 / 2 : ℚ) * 32767) :=
  ⟨c4_wav_container_amended.1 [1 / 2] 22050 (by norm_num),
    c4_wav_container_amended.2 (1 / 2) (by norm_num) (by norm_num)⟩

/-! ## Voice resolution (adv-tts-service `tts_engine.py`) -/

/-- The static PocketTTS voice catalog
(`PocketTTSEngine.VOICE_CATALOG`, lines 566-569), which is exactly what
its `get_supported_speakers` returns (lines 702-703). -/
def pocketVoiceCatalog : List String :=
  ["alba", "marius", "javert", "jean", "fantine", "cosette", "eponine", "azelma"]

/-- Embeds the speaker resolution of `Qwen3Engine.synthesize` (lines
483-487): `speaker = voice or "Vivian"`; then, if the model object
exposes a nonempty supported-speaker list not containing the requested
speaker, substitute the first entry.  `modelSpeakers = none` models a
model without a `get_supported_speakers` attribute. -/
def qwen3ResolveSpeaker (modelSpeakers : Option (List String))
    (voice : Option String) : String :=
  let speaker := match voice with
    | none => "Vivian"
    | some v => if v = "" then "Vivian" else v
  match modelSpeakers with
  | none => speaker
  | some [] => speaker
  | some (s0 :: rest) => if speaker ∈ s0 :: rest then speaker else s0

/-- Embeds the voice resolution of `PocketTTSEngine.synthesize` (lines
630-634): `voice = voice or self.default_voice` with *no* check against
the catalog; the chosen id goes straight to the model's voice loader. -/
def pocketResolveVoice (defaultVoice : String) (voice : Option String) : String :=
  match voice with
  | none => defaultVoice
  | some v => if v = "" then defaultVoice else v

/-! ## Claim C5 -/

/-- C5 counterexample: the PocketTTS engine variant does not substitute
the first supported speaker for an unknown voice id — the unknown id
"zzz", absent from the catalog whose first entry is "alba", is passed
through unchanged. -/
theorem c5_counterexample :
    pocketResolveVoice "alba" (some "zzz") = "zzz"
    ∧ "zzz" ∉ pocketVoiceCatalog
    ∧ pocketVoiceCatalog.headD "" = "alba"
    ∧ pocketResolveVoice "alba" (some "zzz") ≠ "alba" := by
  refine ⟨rfl, by decide, rfl, by decide⟩

/-- C5 amended: the Qwen3 engine substitutes the first supported speaker
whenever the model reports a nonempty speaker list that does not contain
the requested id (and the resolved speaker always belongs to that list);
the PocketTTS engine performs no such substitution and passes any
non-empty requested voice id through to the model's voice loader. -/
theorem c5_voice_fallback_amended :
    (∀ (s0 : String) (rest : List String) (v : String),
        v ∉ s0 :: rest → v ≠ "" →
        qwen3ResolveSpeaker (some (s0 :: rest)) (some v) = s0)
    ∧ (∀ (s0 : String) (rest : List String) (voice : Option String),
        qwen3ResolveSpeaker (some (s0 :: rest)) voice ∈ s0 :: rest)
    ∧ (∀ (d v : String), v ≠ "" → pocketResolveVoice d (some v) = v) := by
  refine ⟨?_, ?_, ?_⟩
  · intro s0 rest v hnot hne
    unfold qwen3ResolveSpeaker
    simp only [hne, if_false]
    rw [if_neg hnot]
  · intro s0 rest voice
    unfold qwen3ResolveSpeaker
    dsimp only
    by_cases hmem :
        (match voice with
          | none => "Vivian"
          | some v => if v = "" then "Vivian" else v) ∈ s0 :: rest
    · rw [if_pos hmem]
      exact hmem
    · rw [if_neg hmem]
      exact List.mem_cons_self s0 rest
  · intro d v hv
    unfold pocketResolveVoice
    dsimp only
    rw [if_neg hv]

/-- Witness for C5 amended: Qwen3 falls back to "Vivian" (first entry)
for the unknown id "zzz"; PocketTTS passes "zzz" through. -/
theorem c5_voice_fallback_amended_witness :
    qwen3ResolveSpeaker (some ["Vivian", "Ryan"]) (some "zzz") = "Vivian"
    ∧ qwen3ResolveSpeaker (some ["Vivian", "Ryan"]) (some "zzz") ∈ ["Vivian", "Ryan"]
    ∧ pocketResolveVoice "alba" (some "zzz") = "zzz" :=
  ⟨c5_voice_fallback_amended.1 "Vivian" ["Ryan"] "zzz" (by decide) (by decide),
    c5_voice_fallback_amended.2.1 "Vivian" ["Ryan"] (some "zzz"),
    c5_voice_fallback_amended.2.2 "alba" "zzz" (by decide)⟩

/-! ## Audio enhancement pipeline (`_enhance_audio`)

tts-service `TTSEngine._enhance_audio` (`tts_engine.py` lines 231-284)
has four stages; adv-tts-service `BaseTTSEngine._enhance_audio` (lines
120-141) has only the first three.  Samples are idealised as `ℚ`. -/

/-- `np.abs(audio).max()`, with 0 for the empty buffer (numpy raises on
an empty buffer; the pipeline's except-handler then returns the input
unchanged, which coincides with skipping normalization). -/
def maxAbs (a : List ℚ) : ℚ := (a.map (fun x => |x|)).foldr max 0

/-- Stage 1, peak normalization (tts lines 241-246; adv lines 122-125):
`audio * (0.85 / max)` when the peak is positive, else unchanged. -/
def normalizePeak (a : List ℚ) : List ℚ :=
  if 0 < maxAbs a then a.map (fun x => x * (85 / 100 / maxAbs a)) else a

/-- The sequential loop of the high-pass filter, carrying the previous
filtered and previous raw sample. -/
def hpAux (prevF prevA : ℚ) : List ℚ → List ℚ
  | [] => []
  | x :: xs =>
    (95 / 100 * prevF + 95 / 100 * (x - prevA))
      :: hpAux (95 / 100 * prevF + 95 / 100 * (x - prevA)) x xs

/-- Stage 2, first-order high-pass filter (tts lines 248-256; adv lines
127-133): `filtered[0] = audio[0]`,
`filtered[i] = 0.95*filtered[i-1] + 0.95*(audio[i] - audio[i-1])`,
applied only when the buffer has more than one sample. -/
def highpassFilter (a : List ℚ) : List ℚ :=
  match a with
  | [] => []
  | [x] => [x]
  | x :: y :: ys => x :: hpAux x x (y :: ys)

/-- Stage 3, hard limiter `np.clip(audio, -0.95, 0.95)` (tts lines
258-260; adv lines 135-136). -/
def clipSamples (a : List ℚ) : List ℚ :=
  a.map (fun x => min (max x (-(95 / 100))) (95 / 100))

/-- Stage 4 per-sample transfer of the soft-knee compressor (tts lines
262-277): above the knee 0.7 the excess magnitude is divided by the
ratio 3, sign preserved. -/
def compressSample (x : ℚ) : ℚ :=
  if 7 / 10 < |x| then
    (if x < 0 then -(7 / 10 + (|x| - 7 / 10) / 3) else 7 / 10 + (|x| - 7 / 10) / 3)
  else x

/-- Stage 4, soft-knee compression, applied sample-wise. -/
def compressSamples (a : List ℚ) : List ℚ := a.map compressSample

/-- Embeds tts-service `TTSEngine._enhance_audio`: all four stages in
source order. -/
def enhanceAudioTts (a : List ℚ) : List ℚ :=
  compressSamples (clipSamples (highpassFilter (normalizePeak a)))

/-- Embeds adv-tts-service `BaseTTSEngine._enhance_audio`:
normalization, high-pass and clip only — there is no compression stage. -/
def enhanceAudioAdv (a : List ℚ) : List ℚ :=
  clipSamples (highpassFilter (normalizePeak a))

/-! ### Stage lemmas -/

theorem maxAbs_cons (x : ℚ) (xs : List ℚ) : maxAbs (x :: xs) = max |x| (maxAbs xs) := rfl

theorem maxAbs_nonneg (a : List ℚ) : 0 ≤ maxAbs a := by
  induction a with
  | nil => simp [maxAbs]
  | cons x xs ih =>
    rw [maxAbs_cons]
    exact le_trans ih (le_max_right _ _)

theorem maxAbs_map_mul (c : ℚ) (hc : 0 ≤ c) (a : List ℚ) :
    maxAbs (a.map (fun x => x * c)) = c * maxAbs a := by
  induction a with
  | nil => simp [maxAbs]
  | cons x xs ih =>
    rw [List.map_cons, maxAbs_cons, maxAbs_cons, ih, abs_mul, abs_of_nonneg hc,
      mul_comm |x| c, mul_max_of_nonneg _ _ hc]

theorem normalizePeak_silent (a : List ℚ) (h : maxAbs a = 0) : normalizePeak a = a := by
  unfold normalizePeak
  rw [h]
  simp

theorem normalizePeak_peak (a : List ℚ) (h : 0 < maxAbs a) :
    maxAbs (normalizePeak a) = 85 / 100 := by
  unfold normalizePeak
  rw [if_pos h, maxAbs_map_mul _ (by positivity) a]
  field_simp
  ring

theorem hpAux_length (l : List ℚ) : ∀ f p : ℚ, (hpAux f p l).length = l.length := by
  induction l with
  | nil => intro f p; rfl
  | cons x xs ih =>
    intro f p
    simp [hpAux, ih]

theorem highpassFilter_length (a : List ℚ) : (highpassFilter a).length = a.length := by
  match a with
  | [] => rfl
  | [x] => rfl
  | x :: y :: ys =>
    simp [highpassFilter, hpAux_length]

theorem hpAux_getD_succ (l : List ℚ) :
    ∀ (f p : ℚ) (i : Nat), i + 1 < l.length →
      (hpAux f p l).getD (i + 1) 0
        = 95 / 100 * (hpAux f p l).getD i 0
          + 95 / 100 * (l.getD (i + 1) 0 - l.getD i 0) := by
  induction l with
  | nil =>
    intro f p i h
    simp at h
  | cons x xs ih =>
    intro f p i h
    match i with
    | 0 =>
      cases xs with
      | nil => simp at h
      | cons y ys =>
        simp [hpAux, List.getD]
    | j + 1 =>
      have hlt : j + 1 < xs.length := by
        simpa using h
      have := ih (95 / 100 * f + 95 / 100 * (x - p)) x j hlt
      simpa [hpAux, List.getD] using this

theorem highpassFilter_getD_zero (a : List ℚ) :
    (highpassFilter a).getD 0 0 = a.getD 0 0 := by
  match a with
  | [] => rfl
  | [x] => rfl
  | x :: y :: ys => rfl

theorem highpassFilter_recurrence (a : List ℚ) (i : Nat) (h : i + 1 < a.length) :
    (highpassFilter a).getD (i + 1) 0
      = 95 / 100 * (highpassFilter a).getD i 0
        + 95 / 100 * (a.getD (i + 1) 0 - a.getD i 0) := by
  match a with
  | [] => simp at h
  | [x] => simp at h
  | x :: y :: ys =>
    match i with
    | 0 =>
      simp [highpassFilter, hpAux, List.getD]
    | j + 1 =>
      have hlt : j + 1 < (y :: ys).length := by
        simpa using h
      have := hpAux_getD_succ (y :: ys) x x j hlt
      simpa [highpassFilter, List.getD] using this

theorem clipSamples_bounds (a : List ℚ) (x : ℚ) (hx : x ∈ clipSamples a) :
    -(95 / 100) ≤ x ∧ x ≤ 95 / 100 := by
  unfold clipSamples at hx
  rw [List.mem_map] at hx
  obtain ⟨y, _, rfl⟩ := hx
  constructor
  · exact le_min (le_max_right _ _) (by norm_num)
  · exact min_le_right _ _

theorem compressSample_below_knee (x : ℚ) (h : |x| ≤ 7 / 10) :
    compressSample x = x := by
  unfold compressSample
  rw [if_neg (not_lt.mpr h)]

theorem compressSample_above_knee (x : ℚ) (h : 7 / 10 < |x|) :
    |compressSample x| = 7 / 10 + (|x| - 7 / 10) / 3
    ∧ (0 < x → 0 < compressSample x) ∧ (x < 0 → compressSample x < 0) := by
  have hpos : (0 : ℚ) < 7 / 10 + (|x| - 7 / 10) / 3 := by
    have : (0 : ℚ) < |x| - 7 / 10 := by linarith
    positivity
  unfold compressSample
  rw [if_pos h]
  by_cases hneg : x < 0
  · rw [if_pos hneg]
    refine ⟨by rw [abs_neg, abs_of_pos hpos], ?_, fun _ => by linarith⟩
    intro hx
    linarith
  · rw [if_neg hneg]
    exact ⟨abs_of_pos hpos, fun _ => hpos, fun hx => absurd hx hneg⟩

/-! ### Concrete single-sample evaluations (shared by C6 and C7) -/

theorem maxAbs_one : maxAbs [(1 : ℚ)] = 1 := by
  simp [maxAbs]

theorem normalizePeak_one : normalizePeak [(1 : ℚ)] = [17 / 20] := by
  unfold normalizePeak
  rw [maxAbs_one, if_pos (by norm_num)]
  norm_num

theorem clipSamples_single : clipSamples [(17 / 20 : ℚ)] = [17 / 20] := by
  unfold clipSamples
  rw [List.map_cons, List.map_nil, max_eq_left (by norm_num), min_eq_left (by norm_num)]

theorem compressSamples_single : compressSamples [(17 / 20 : ℚ)] = [3 / 4] := by
  have habs : |(17 / 20 : ℚ)| = 17 / 20 := abs_of_pos (by norm_num)
  have hcs : compressSample (17 / 20) = 3 / 4 := by
    unfold compressSample
    rw [habs, if_pos (by norm_num), if_neg (by norm_num)]
    norm_num
  simp [compressSamples, hcs]

/-! ## Claim C6 -/

/-- C6 counterexample: on the buffer [1.0] the adv-tts-service pipeline
outputs [0.85] while the claimed four-stage pipeline (the one tts-service
implements) outputs [0.75] — the adv variant has no compression stage, so
the claim is false for it. -/
theorem c6_counterexample :
    enhanceAudioAdv [1] = [17 / 20]
    ∧ enhanceAudioTts [1] = [3 / 4]
    ∧ enhanceAudioAdv [1] ≠ enhanceAudioTts [1] := by
  have hhp : highpassFilter [(17 / 20 : ℚ)] = [17 / 20] := rfl
  have hadv : enhanceAudioAdv [1] = [17 / 20] := by
    unfold enhanceAudioAdv
    rw [normalizePeak_one, hhp, clipSamples_single]
  have htts : enhanceAudioTts [1] = [3 / 4] := by
    unfold enhanceAudioTts
    rw [normalizePeak_one, hhp, clipSamples_single, compressSamples_single]
  refine ⟨hadv, htts, ?_⟩
  rw [hadv, htts]
  intro hcontra
  have := (List.cons.injEq _ _ _ _).mp hcontra
  exact absurd this.1 (by norm_num)

/-- C6 amended: the tts-service pipeline applies, in order, peak
normalization to 0.85 (skipped when the maximum absolute sample is 0;
otherwise the output peak equals 0.85), the first-order high-pass filter
with the stated recurrence, hard clipping to [-0.95, 0.95], and soft-knee
compression at knee 0.7 with ratio 3:1 applied sample-wise to magnitudes
with sign preserved; the adv-tts-service pipeline applies only the first
three stages and has no compression stage. -/
theorem c6_enhancement_amended :
    (∀ a : List ℚ, enhanceAudioTts a
        = compressSamples (clipSamples (highpassFilter (normalizePeak a))))
    ∧ (∀ a : List ℚ, enhanceAudioAdv a
        = clipSamples (highpassFilter (normalizePeak a)))
    ∧ (∀ a : List ℚ, maxAbs a = 0 → normalizePeak a = a)
    ∧ (∀ a : List ℚ, 0 < maxAbs a → maxAbs (normalizePeak a) = 85 / 100)
    ∧ (∀ a : List ℚ, (highpassFilter a).getD 0 0 = a.getD 0 0
        ∧ ∀ i : Nat, i + 1 < a.length →
            (highpassFilter a).getD (i + 1) 0
              = 95 / 100 * (highpassFilter a).getD i 0
                + 95 / 100 * (a.getD (i + 1) 0 - a.getD i 0))
    ∧ (∀ (a : List ℚ) (x : ℚ), x ∈ clipSamples a → -(95 / 100) ≤ x ∧ x ≤ 95 / 100)
    ∧ (∀ x : ℚ, 7 / 10 < |x| →
        |compressSample x| = 7 / 10 + (|x| - 7 / 10) / 3
        ∧ (0 < x → 0 < compressSample x) ∧ (x < 0 → compressSample x < 0))
    ∧ (∀ x : ℚ, |x| ≤ 7 / 10 → compressSample x = x) :=
  ⟨fun _ => rfl, fun _ => rfl, normalizePeak_silent, normalizePeak_peak,
    fun a => ⟨highpassFilter_getD_zero a, fun i h => highpassFilter_recurrence a i h⟩,
    clipSamples_bounds, compressSample_above_knee, compressSample_below_knee⟩

/-- Witness for C6 amended, touching every hypothesised conjunct at a
concrete input. -/
theorem c6_enhancement_amended_witness :
    normalizePeak ([] : List ℚ) = []
    ∧ maxAbs (normalizePeak [(1 : ℚ)]) = 85 / 100
    ∧ (highpassFilter [(1 : ℚ), 0]).getD 1 0
        = 95 / 100 * (highpassFilter [(1 : ℚ), 0]).getD 0 0
          + 95 / 100 * (([(1 : ℚ), 0]).getD 1 0 - ([(1 : ℚ), 0]).getD 0 0)
    ∧ (-(95 / 100) ≤ (19 / 20 : ℚ) ∧ (19 / 20 : ℚ) ≤ 95 / 100)
    ∧ |compressSample (4 / 5)| = 7 / 10 + (|(4 / 5 : ℚ)| - 7 / 10) / 3
    ∧ compressSample (1 / 2) = 1 / 2 :=
  ⟨c6_enhancement_amended.2.2.1 [] (by simp [maxAbs]),
    c6_enhancement_amended.2.2.2.1 [1] (by rw [maxAbs_one]; norm_num),
    (c6_enhancement_amended.2.2.2.2.1 [1, 0]).2 0 (by simp),
    c6_enhancement_amended.2.2.2.2.2.1 [2] (19 / 20)
      (by
        have : clipSamples [(2 : ℚ)] = [19 / 20] := by
          unfold clipSamples
          rw [List.map_cons, List.map_nil, max_eq_left (by norm_num),
            min_eq_right (by norm_num)]
          norm_num
        rw [this]
        simp),
    (c6_enhancement_amended.2.2.2.2.2.2.1 (4 / 5)
      (by rw [abs_of_pos (by norm_num)]; norm_num)).1,
    c6_enhancement_amended.2.2.2.2.2.2.2 (1 / 2)
      (by rw [abs_of_pos (by norm_num)]; norm_num)⟩

/-! ## Claim C7 -/

/-- The four stages of the tts-service enhancement pipeline, in source
order. -/
inductive EnhanceStage
  | normalize
  | highpass
  | clip
  | compress
deriving DecidableEq

/-- Embeds the `try/except` of `TTSEngine._enhance_audio` (lines 240-284)
when an exception is raised while computing stage `fault` (e.g. a
MemoryError allocating `np.zeros_like` in the high-pass stage, before
that stage's result is assigned): the handler returns the current value
of the `audio_data` variable, i.e. the output of the stages already
completed — not necessarily the original input. -/
def enhanceAudioTtsWithFault (fault : Option EnhanceStage) (a : List ℚ) : List ℚ :=
  match fault with
  | none => enhanceAudioTts a
  | some .normalize => a
  | some .highpass => normalizePeak a
  | some .clip => highpassFilter (normalizePeak a)
  | some .compress => clipSamples (highpassFilter (normalizePeak a))

/-- C7: evaluating the exception handler of `_enhance_audio` at the
failing input: an exception raised in the high-pass stage on the buffer
[1.0] makes the handler return the already-normalized buffer [0.85], not
the original unmodified [1.0] that the claim (and the code's own
"using raw audio" log message) promises; only a fault in the very first
stage returns the original. -/
theorem c7_enhance_fault_returns_partial :
    enhanceAudioTtsWithFault (some EnhanceStage.highpass) [1] = [17 / 20]
    ∧ enhanceAudioTtsWithFault (some EnhanceStage.highpass) [1] ≠ [1]
    ∧ enhanceAudioTtsWithFault none [1] = enhanceAudioTts [1]
    ∧ enhanceAudioTtsWithFault (some EnhanceStage.normalize) [1] = [1] := by
  have h1 : enhanceAudioTtsWithFault (some EnhanceStage.highpass) [1] = [17 / 20] := by
    unfold enhanceAudioTtsWithFault
    exact normalizePeak_one
  refine ⟨h1, ?_, rfl, rfl⟩
  rw [h1]
  intro hcontra
  have := (List.cons.injEq _ _ _ _).mp hcontra
  exact absurd this.1 (by norm_num)

/-! ## Engine lifecycle (C8)

`TTSEngine.initialize` (tts-service `tts_engine.py` lines 49-93) and
`PiperEngine.initialize` (adv-tts-service lines 166-204) both start with
`if self._initialized: log warning; return`, and set `_initialized = True`
only after a successful model load.  The observable lifecycle state is the
`_initialized` flag plus a load-count probe; the opaque model load either
succeeds or raises, abstracted by `loadOk`. -/

/-- Observable engine lifecycle state. -/
structure EngineState where
  initialized : Bool
  loadCount : Nat
deriving DecidableEq

/-- Outcome of one `initialize()` call. -/
inductive InitOutcome
  | noop
  | loaded
  | failed
deriving DecidableEq

/-- Embeds `initialize()`: early-return when already initialized;
otherwise attempt the model load, setting the flag only on success and
raising (flag left false) on failure. -/
def initializeEngine (loadOk : Bool) (s : EngineState) : EngineState × InitOutcome :=
  if s.initialized then (s, .noop)
  else if loadOk then ({ initialized := true, loadCount := s.loadCount + 1 }, .loaded)
  else (s, .failed)

/-! ## Claim C8 -/

/-- C8: `initialize()` is idempotent — on an already-initialized engine a
second call is a no-op that leaves the state unchanged and performs no
model load; in particular, after a successful first call a second call
(whatever the loader would do) returns the same ready state with the same
load count. -/
theorem c8_initialize_idempotent :
    (∀ (loadOk : Bool) (s : EngineState), s.initialized = true →
        initializeEngine loadOk s = (s, InitOutcome.noop))
    ∧ (∀ (b₂ : Bool) (s : EngineState), s.initialized = false →
        let s₁ := (initializeEngine true s).1
        s₁.initialized = true
        ∧ s₁.loadCount = s.loadCount + 1
        ∧ initializeEngine b₂ s₁ = (s₁, InitOutcome.noop)) := by
  constructor
  · intro loadOk s h
    unfold initializeEngine
    rw [h]
    rfl
  · intro b₂ s h
    have hs₁ : (initializeEngine true s).1
        = { initialized := true, loadCount := s.loadCount + 1 } := by
      unfold initializeEngine
      rw [h]
      rfl
    refine ⟨by rw [hs₁], by rw [hs₁], ?_⟩
    rw [hs₁]
    rfl

/-- Witness for C8 at the fresh engine state. -/
theorem c8_initialize_idempotent_witness :
    let s₁ := (initializeEngine true ⟨false, 0⟩).1
    s₁.initialized = true ∧ s₁.loadCount = 1
    ∧ initializeEngine false s₁ = (s₁, InitOutcome.noop) :=
  c8_initialize_idempotent.2 false ⟨false, 0⟩ rfl

/-! ## STT engine (C10)

`STTEngine.transcribe` (stt-service `stt_engine.py` lines 48-118) begins
with `if not self.model_loaded: self.load_model()` and then runs the
Whisper inference inside try/except; `load_model` (lines 22-46) is a
no-op when already loaded, sets `model_loaded = True` on success, and
re-raises its exception on failure.  The opaque load and inference are
abstracted by the `loadOk` / `inferOk` oracles. -/

/-- Observable STT engine state. -/
structure STTState where
  modelLoaded : Bool
  loadCount : Nat
deriving DecidableEq

/-- Outcome of one `transcribe` call.  `notInitializedError` is the
precondition-violation outcome the TTS engines raise
("engine not initialized"); it exists in the outcome type so that its
absence from `transcribe` is expressible. -/
inductive TranscribeOutcome
  | success
  | loadError
  | inferenceError
  | notInitializedError
deriving DecidableEq

/-- Embeds `STTEngine.transcribe`: lazy-load the model if needed, then
run inference; a load failure propagates before inference is attempted. -/
def sttTranscribe (loadOk inferOk : Bool) (s : STTState) :
    STTState × TranscribeOutcome :=
  if s.modelLoaded then
    (s, if inferOk then .success else .inferenceError)
  else if loadOk then
    ({ modelLoaded := true, loadCount := s.loadCount + 1 },
      if inferOk then .success else .inferenceError)
  else (s, .loadError)

/-! ## Claim C10 -/

/-- C10: `transcribe` never fails with a not-initialized precondition
violation: called before the model is loaded it first loads the model
itself (incrementing the load count, setting the flag) and then performs
the transcription, so every call ends in success, a load error, or an
inference error. -/
theorem c10_transcribe_lazy_load :
    (∀ (loadOk inferOk : Bool) (s : STTState),
        (sttTranscribe loadOk inferOk s).2 ≠ TranscribeOutcome.notInitializedError)
    ∧ (∀ (inferOk : Bool) (s : STTState), s.modelLoaded = false →
        (sttTranscribe true inferOk s).1.modelLoaded = true
        ∧ (sttTranscribe true inferOk s).1.loadCount = s.loadCount + 1
        ∧ (sttTranscribe true inferOk s).2
            = (if inferOk then TranscribeOutcome.success
               else TranscribeOutcome.inferenceError))
    ∧ (∀ (inferOk : Bool) (s : STTState), s.modelLoaded = false →
        sttTranscribe false inferOk s = (s, TranscribeOutcome.loadError)) := by
  refine ⟨?_, ?_, ?_⟩
  · intro loadOk inferOk s
    unfold sttTranscribe
    by_cases h : s.modelLoaded
    · rw [if_pos h]
      cases inferOk <;> simp
    · rw [if_neg h]
      by_cases hl : loadOk = true
      · rw [if_pos hl]
        cases inferOk <;> simp
      · rw [if_neg hl]
        simp
  · intro inferOk s h
    unfold sttTranscribe
    rw [h]
    simp
  · intro inferOk s h
    unfold sttTranscribe
    rw [h]
    rfl

/-- Witness for C10 at the fresh engine state. -/
theorem c10_transcribe_lazy_load_witness :
    ((sttTranscribe true true ⟨false, 0⟩).1.modelLoaded = true
      ∧ (sttTranscribe true true ⟨false, 0⟩).1.loadCount = 0 + 1
      ∧ (sttTranscribe true true ⟨false, 0⟩).2
          = (if true then TranscribeOutcome.success
             else TranscribeOutcome.inferenceError))
    ∧ sttTranscribe false true ⟨false, 0⟩ = (⟨false, 0⟩, TranscribeOutcome.loadError) :=
  ⟨c10_transcribe_lazy_load.2.1 true ⟨false, 0⟩ rfl,
    c10_transcribe_lazy_load.2.2 true ⟨false, 0⟩ rfl⟩

/-! ## ConcurrencyGate (C1)

adv-tts-service `routes.py` line 26 creates
`synthesis_semaphore = asyncio.Semaphore(1)`; `synthesize_text` (lines
128-173) and the other inference routes wrap the whole gated body in
`async with synthesis_semaphore:`, whose `__aexit__` releases the
semaphore on normal return and on every exception (timeouts included,
since they surface as raised exceptions).  The system of `n` concurrent
requests is embedded as a transition system: each request is waiting,
running (holding the gate), or done. -/

/-- Phase of one request in the gated route handler. -/
inductive ReqPhase
  | waiting
  | running
  | done (ok : Bool)
deriving DecidableEq

/-- Global state: per-request phases plus the semaphore's holder. -/
structure GateSys where
  phases : List ReqPhase
  holder : Option Nat
deriving DecidableEq

/-- All `n` requests pending, gate free. -/
def gateInit (n : Nat) : GateSys := ⟨List.replicate n ReqPhase.waiting, none⟩

/-- One step of the gated system.  `acquire` embeds the suspension of
`async with synthesis_semaphore:` — it fires only when the gate is free;
`finish` embeds the body completing with success (`ok = true`) or raising
(`ok = false`, covering inference errors and timeouts): the context
manager releases the gate on both paths, so both transitions set the
holder to `none`. -/
inductive GateStep : GateSys → GateSys → Prop
  | acquire (s : GateSys) (i : Nat)
      (hw : s.phases[i]? = some ReqPhase.waiting)
      (hfree : s.holder = none) :
      GateStep s ⟨s.phases.set i ReqPhase.running, some i⟩
  | finish (s : GateSys) (i : Nat) (ok : Bool)
      (hr : s.phases[i]? = some ReqPhase.running)
      (hold : s.holder = some i) :
      GateStep s ⟨s.phases.set i (ReqPhase.done ok), none⟩

/-- States reachable from `n` concurrently arriving requests. -/
def GateReachable (n : Nat) (s : GateSys) : Prop :=
  Relation.ReflTransGen GateStep (gateInit n) s

/-- The gate invariant: the holder is exactly the running request. -/
def GateWF (s : GateSys) : Prop :=
  (∀ i, s.phases[i]? = some ReqPhase.running → s.holder = some i)
  ∧ (∀ i, s.holder = some i → s.phases[i]? = some ReqPhase.running)

theorem gateWF_init (n : Nat) : GateWF (gateInit n) := by
  constructor
  · intro i h
    simp only [gateInit, List.getElem?_replicate] at h
    by_cases hi : i < n
    · rw [if_pos hi] at h
      exact absurd (Option.some.inj h) (by intro hx; cases hx)
    · rw [if_neg hi] at h
      cases h
  · intro i h
    simp only [gateInit] at h
    cases h

theorem gateWF_step (s s' : GateSys) (hstep : GateStep s s') (hwf : GateWF s) :
    GateWF s' := by
  obtain ⟨hfwd, hbwd⟩ := hwf
  cases hstep with
  | acquire i hw hfree =>
    obtain ⟨hilen, _⟩ := List.getElem?_eq_some.mp hw
    constructor
    · intro k hk
      by_cases hik : i = k
      · rw [hik]
      · rw [List.getElem?_set_ne hik] at hk
        have := hfwd k hk
        rw [hfree] at this
        cases this
    · intro k hk
      have hik : i = k := Option.some.inj hk
      subst hik
      rw [List.getElem?_set_self hilen]
  | finish i ok hr hold =>
    obtain ⟨hilen, _⟩ := List.getElem?_eq_some.mp hr
    constructor
    · intro k hk
      by_cases hik : i = k
      · subst hik
        rw [List.getElem?_set_self hilen] at hk
        exact absurd (Option.some.inj hk) (by intro hx; cases hx)
      · rw [List.getElem?_set_ne hik] at hk
        have := hfwd k hk
        rw [hold] at this
        exact absurd (Option.some.inj this) hik
    · intro k hk
      cases hk

theorem gateWF_reachable (n : Nat) (s : GateSys) (h : GateReachable n s) :
    GateWF s := by
  induction h with
  | refl => exact gateWF_init n
  | tail _ hstep ih => exact gateWF_step _ _ hstep ih

/-! ## Claim C1 -/

/-- C1: in every reachable state of `n` concurrent requests, at most one
request is running (inside the Engine) at a time; moreover for any
running request, finishing — successfully or by raising — is a legal step
that releases the gate, after which any still-waiting request can
immediately acquire it: a throwing request never leaves the gate held. -/
theorem c1_gate_serialization (n : Nat) (s : GateSys) (hreach : GateReachable n s) :
    (∀ i j : Nat, s.phases[i]? = some ReqPhase.running →
        s.phases[j]? = some ReqPhase.running → i = j)
    ∧ (∀ (i : Nat) (ok : Bool), s.phases[i]? = some ReqPhase.running →
        GateStep s ⟨s.phases.set i (ReqPhase.done ok), none⟩
        ∧ ∀ j : Nat,
            (s.phases.set i (ReqPhase.done ok))[j]? = some ReqPhase.waiting →
            GateStep ⟨s.phases.set i (ReqPhase.done ok), none⟩
              ⟨(s.phases.set i (ReqPhase.done ok)).set j ReqPhase.running, some j⟩) := by
  obtain ⟨hfwd, hbwd⟩ := gateWF_reachable n s hreach
  constructor
  · intro i j hi hj
    have h1 := hfwd i hi
    have h2 := hfwd j hj
    rw [h1] at h2
    exact Option.some.inj h2
  · intro i ok hi
    have hold := hfwd i hi
    refine ⟨GateStep.finish s i ok hi hold, ?_⟩
    intro j hj
    exact GateStep.acquire ⟨s.phases.set i (ReqPhase.done ok), none⟩ j hj rfl

/-- Witness for C1 on a concrete two-request system: after request 0
acquires the gate, mutual exclusion holds; request 0's body may raise
(`ok = false`), the gate is released, and waiting request 1 can acquire. -/
theorem c1_gate_serialization_witness :
    (∀ i j : Nat,
        (GateSys.mk [ReqPhase.running, ReqPhase.waiting] (some 0)).phases[i]?
            = some ReqPhase.running →
        (GateSys.mk [ReqPhase.running, ReqPhase.waiting] (some 0)).phases[j]?
            = some ReqPhase.running → i = j)
    ∧ GateStep ⟨[ReqPhase.running, ReqPhase.waiting], some 0⟩
        ⟨([ReqPhase.running, ReqPhase.waiting] : List ReqPhase).set 0
            (ReqPhase.done false), none⟩
    ∧ GateStep
        ⟨([ReqPhase.running, ReqPhase.waiting] : List ReqPhase).set 0
            (ReqPhase.done false), none⟩
        ⟨(([ReqPhase.running, ReqPhase.waiting] : List ReqPhase).set 0
            (ReqPhase.done false)).set 1 ReqPhase.running, some 1⟩ :=
  have hreach : GateReachable 2 ⟨[ReqPhase.running, ReqPhase.waiting], some 0⟩ :=
    Relation.ReflTransGen.single (GateStep.acquire (gateInit 2) 0 rfl rfl)
  have hmain := c1_gate_serialization 2 ⟨[ReqPhase.running, ReqPhase.waiting], some 0⟩ hreach
  ⟨hmain.1,
    (hmain.2 0 false rfl).1,
    (hmain.2 0 false rfl).2 1 rfl⟩

/-! ## StreamSession (C9)

Both `websocket_stream` handlers (tts-service `routes.py` lines 172-229,
adv-tts-service `routes.py` lines 217-277) wrap the whole `while True`
receive loop in a single `try`.  An unrecognized message type sends an
error message and `continue`s; but an exception raised while streaming a
request escapes the `while` loop into the outer `except`, which sends a
single error message and then lets the handler return — ending the
session and closing the connection. -/

/-- One inbound WebSocket message: a synthesize request whose streaming
yields `units` chunks, with `failAt = some k` (k < units) marking the
iteration at which the engine or generator raises; or a message of an
unrecognized type. -/
inductive WsIncoming
  | synthMsg (units : Nat) (failAt : Option Nat)
  | otherMsg

/-- One outbound WebSocket message of the streaming protocol. -/
inductive WsOutgoing
  | audioChunk (sequenceId : Nat) (isLast : Bool)
  | complete (sequenceId : Nat) (isLast : Bool)
  | errorMsg
deriving DecidableEq

/-- Whether the handler is still in its receive loop (connection open) or
has returned (connection closed). -/
inductive SessionEnd
  | awaitingMessage
  | closed
deriving DecidableEq

/-- Embeds the `websocket_stream` loop over a finite inbound script:
unknown types send an error and continue; a successful request sends its
chunks with increasing zero-based sequence ids and `is_last = false`,
then a terminal complete message, and continues; a request that raises
at iteration `k` sends the chunks already produced, then the outer
handler sends one error message and returns — later messages are never
received. -/
def runSession : List WsIncoming → List WsOutgoing × SessionEnd
  | [] => ([], .awaitingMessage)
  | .otherMsg :: rest =>
    let r := runSession rest
    (.errorMsg :: r.1, r.2)
  | .synthMsg units none :: rest =>
    let r := runSession rest
    ((List.range units).map (fun k => .audioChunk k false)
      ++ [.complete units true] ++ r.1, r.2)
  | .synthMsg units (some k) :: _ =>
    ((List.range (min k units)).map (fun j => .audioChunk j false)
      ++ [.errorMsg], .closed)

/-- Follows the specification's words for C9: an exception during
streaming emits a single error message, ends only the current request
cycle, and keeps the connection open awaiting the next message. -/
def specRunSession : List WsIncoming → List WsOutgoing × SessionEnd
  | [] => ([], .awaitingMessage)
  | .otherMsg :: rest =>
    let r := specRunSession rest
    (.errorMsg :: r.1, r.2)
  | .synthMsg units none :: rest =>
    let r := specRunSession rest
    ((List.range units).map (fun k => .audioChunk k false)
      ++ [.complete units true] ++ r.1, r.2)
  | .synthMsg units (some k) :: rest =>
    let r := specRunSession rest
    ((List.range (min k units)).map (fun j => .audioChunk j false)
      ++ [.errorMsg] ++ r.1, r.2)

/-! ## Claim C9 -/

/-- C9 counterexample: a request that raises at its first unit, followed
by a request that would succeed.  The code sends one error message and
the handler returns — the second request is never processed and the
connection closes — while the claim's behaviour would keep the session
open and serve the second request. -/
theorem c9_counterexample :
    runSession [WsIncoming.synthMsg 1 (some 0), WsIncoming.synthMsg 1 none]
      = ([WsOutgoing.errorMsg], SessionEnd.closed)
    ∧ specRunSession [WsIncoming.synthMsg 1 (some 0), WsIncoming.synthMsg 1 none]
      = ([WsOutgoing.errorMsg, WsOutgoing.audioChunk 0 false,
          WsOutgoing.complete 1 true], SessionEnd.awaitingMessage)
    ∧ runSession [WsIncoming.synthMsg 1 (some 0), WsIncoming.synthMsg 1 none]
      ≠ specRunSession [WsIncoming.synthMsg 1 (some 0), WsIncoming.synthMsg 1 none] := by
  refine ⟨rfl, rfl, by decide⟩

/-- C9 amended: an exception raised while streaming a request makes the
session emit the already-produced chunks and a single error message, and
then terminate — the handler returns, the connection closes, and no later
message is processed; only an unrecognized message type is non-fatal
(error message, connection stays open), and a successful request emits
its chunks with zero-based increasing sequence ids, `is_last` false, then
a terminal complete message carrying the next sequence id and
`is_last` true, and the session keeps listening. -/
theorem c9_stream_error_amended :
    (∀ (units k : Nat) (rest : List WsIncoming), k < units →
        runSession (WsIncoming.synthMsg units (some k) :: rest)
          = ((List.range k).map (fun j => WsOutgoing.audioChunk j false)
              ++ [WsOutgoing.errorMsg], SessionEnd.closed))
    ∧ (∀ rest : List WsIncoming,
        runSession (WsIncoming.otherMsg :: rest)
          = (WsOutgoing.errorMsg :: (runSession rest).1, (runSession rest).2))
    ∧ (∀ (units : Nat) (rest : List WsIncoming),
        runSession (WsIncoming.synthMsg units none :: rest)
          = ((List.range units).map (fun j => WsOutgoing.audioChunk j false)
              ++ [WsOutgoing.complete units true] ++ (runSession rest).1,
            (runSession rest).2)) := by
  refine ⟨?_, fun rest => rfl, fun units rest => rfl⟩
  intro units k rest hk
  simp only [runSession]
  rw [min_eq_left (le_of_lt hk)]

/-- Witness for C9 amended: a request with two units raising at the
second unit sends one chunk, one error, and closes the session. -/
theorem c9_stream_error_amended_witness :
    runSession [WsIncoming.synthMsg 2 (some 1)]
      = ((List.range 1).map (fun j => WsOutgoing.audioChunk j false)
          ++ [WsOutgoing.errorMsg], SessionEnd.closed) :=
  c9_stream_error_amended.1 2 1 [] (by decide)

end SecondBrain
